import Mathlib

/-!
Shallow embedding of the crawl engine of `src/web_crawler.py`
(class `WebCrawler`) and proofs about its behaviour.

Python string primitives (`in`, `split`, `splitlines`, `lower`,
`endswith`, slicing) are modelled character-exactly for the ASCII
fragment the crawler manipulates.  The external collaborators
(Playwright page fetch/render, requests, pdfplumber, md5, urljoin,
robots parsing verdicts) are parameters of a `CrawlWorld` record; the
engine's own logic (frontier, visited set, robots cache, dedup,
filtering, persistence bookkeeping) is translated from the source.
-/

namespace WebCrawlerPy

/-- Python `str.isspace` on the ASCII whitespace characters used by
`str.split()` with no separator. -/
def pyIsSpace (c : Char) : Bool :=
  c = ' ' || c = '\t' || c = '\n' || c = '\r' || c = '\x0B' || c = '\x0C'

/-- Is the first list a prefix of the second (character lists)? -/
def isPrefixCh : List Char → List Char → Bool
  | [], _ => true
  | _ :: _, [] => false
  | p :: ps, c :: cs => p = c && isPrefixCh ps cs

/-- Does `cs` contain `pat` as a contiguous sublist? -/
def containsCh : List Char → List Char → Bool
  | [], pat => pat.isEmpty
  | c :: cs, pat => isPrefixCh pat (c :: cs) || containsCh cs pat

/-- Python `pat in s` (substring test). -/
def strContains (s pat : String) : Bool := containsCh s.data pat.data

/-- Python `s.startswith(pat)`. -/
def startsWithStr (s pat : String) : Bool := isPrefixCh pat.data s.data

/-- Python `s.endswith(pat)`. -/
def strEndsWith (s pat : String) : Bool :=
  isPrefixCh pat.data.reverse s.data.reverse

/-- Python `s.lower()` (ASCII fragment). -/
def lowerStr (s : String) : String := ⟨s.data.map Char.toLower⟩

/-- Python `s.splitlines()` restricted to the newline character:
`""` gives `[]`, a trailing newline does not create an empty final
line, and interior empty lines are kept. -/
def pyLinesCh : List Char → List (List Char)
  | [] => []
  | c :: cs =>
    if c = '\n' then [] :: pyLinesCh cs
    else
      match pyLinesCh cs with
      | [] => [[c]]
      | l :: ls => (c :: l) :: ls

/-- Python `text.splitlines()` at the `String` level. -/
def pySplitlines (s : String) : List String :=
  (pyLinesCh s.data).map (fun l => ⟨l⟩)

/-- Python `"\n".join(ls)` on character lists. -/
def joinNlCh : List (List Char) → List Char
  | [] => []
  | [l] => l
  | l :: l2 :: ls => l ++ '\n' :: joinNlCh (l2 :: ls)

/-- Python `"\n".join(ls)` at the `String` level. -/
def joinNl (ls : List String) : String := ⟨joinNlCh (ls.map String.data)⟩

/-- Helper for Python `s.split()`: accumulate the current token
(in reverse) while scanning. -/
def splitWsAux (acc : List Char) : List Char → List (List Char)
  | [] => if acc.isEmpty then [] else [acc.reverse]
  | c :: cs =>
    if pyIsSpace c then
      if acc.isEmpty then splitWsAux [] cs
      else acc.reverse :: splitWsAux [] cs
    else splitWsAux (c :: acc) cs

/-- Python `line.split()` with no separator: maximal runs of
non-whitespace characters. -/
def pySplitWs (s : String) : List String :=
  (splitWsAux [] s.data).map (fun l => ⟨l⟩)

/-- One line survives the crawler's content filter iff it has more than
two whitespace-separated tokens and contains none of the filter
phrases.  This is the predicate of the list comprehension at
`web_crawler.py:242` (and, with the domain's phrase list, line 318). -/
def keepLine (phrases : List String) (line : String) : Bool :=
  decide (2 < (pySplitWs line).length) &&
    !(phrases.any (fun phrase => strContains line phrase))

/-- The crawler's line filter: split into lines, keep the surviving
ones, rejoin with newlines (`web_crawler.py:238-246`). -/
def filterText (phrases : List String) (text : String) : String :=
  joinNl ((pySplitlines text).filter (keepLine phrases))

/-- First-match lookup in an association list; models reading a Python
dict / the YAML `documents:` mapping. -/
def dictLookup {α : Type} : List (String × α) → String → Option α
  | [], _ => none
  | (k0, v) :: m, k => if k0 = k then some v else dictLookup m k

/-- Python dict assignment `d[k] = v`: replace the value at an existing
key in place, otherwise append the new pair (insertion order kept). -/
def dictSet {α : Type} : List (String × α) → String → α → List (String × α)
  | [], k, v => [(k, v)]
  | (k0, v0) :: m, k, v =>
    if k0 = k then (k0, v) :: m else (k0, v0) :: dictSet m k v

/-- Number of entries of an association list carrying the given key. -/
def keyCount {α : Type} (m : List (String × α)) (k : String) : Nat :=
  (m.filter (fun kv => kv.1 = k)).length

/-- `update_url_mapping` (`web_crawler.py:343-353`): the loaded mapping
(empty when the file is absent) gets `filename → url` assigned and is
written back.  The state transform on the mapping is dict assignment. -/
def updateUrlMapping (m : List (String × String)) (filename url : String) :
    List (String × String) :=
  dictSet m filename url

/-- Locate the text after the first `"://"` separator, if any. -/
def findSchemeSep : List Char → Option (List Char)
  | [] => none
  | c :: cs =>
    if isPrefixCh [':', '/', '/'] (c :: cs) then some (cs.drop 2)
    else findSchemeSep cs

/-- `urllib.parse.urlparse(url).netloc` for the URLs the crawler sees:
the text between the first `"://"` and the next `/`, `?` or `#`
(empty when the URL has no `"://"`). -/
def pyNetloc (url : String) : String :=
  match findSchemeSep url.data with
  | none => ""
  | some rest => ⟨rest.takeWhile (fun c => c != '/' && c != '?' && c != '#')⟩

/-- The character class of the substitution regex in `url_to_filename`
(`web_crawler.py:338`). -/
def illegalChars : List Char :=
  ['<', '>', ':', '"', '.', '/', '\\', '|', '?', '*']

/-- `re.sub(r'[<>:"./\\|?*]', '_', s)`. -/
def subIllegal (s : String) : String :=
  ⟨s.data.map (fun c => if c ∈ illegalChars then '_' else c)⟩

/-- `url_to_filename(url, file_format)` with the defaults used by the
crawler (`no_type=False`, `name_extension=""`): substitute the illegal
characters of `url[8:]` and append `"." + file_format`
(`web_crawler.py:335-341`). -/
def urlToFilename (url : String) (fileFormat : String) : String :=
  subIllegal ⟨url.data.drop 8⟩ ++ "." ++ fileFormat

/-- Modelled from the spec's words (§4.6 / §3 URLMapping), for
comparison with `urlToFilename`: strip the URL's scheme prefix, then
substitute and append the extension. -/
def stripScheme (url : String) : String :=
  if startsWithStr url "https://" then ⟨url.data.drop 8⟩
  else if startsWithStr url "http://" then ⟨url.data.drop 7⟩
  else url

/-- Modelled from the spec's words: the filename the spec describes
(scheme stripped, illegal characters replaced, extension appended). -/
def urlToFilenameSpec (url : String) (fileFormat : String) : String :=
  subIllegal (stripScheme url) ++ "." ++ fileFormat

/-- The loop of `scrape_text_from_pdf` (`web_crawler.py:288-292`):
fold over the extracted page texts, returning the accumulated `text`
variable and the final value of the per-iteration `page_text` variable
(`none` when the PDF has no pages, in which case the Python code raises
`NameError` on the unbound `page_text`). -/
def pdfLoop (pages : List String) : String × Option String :=
  pages.foldl
    (fun acc p => (acc.1 ++ "\n" ++ (p ++ "\n"), some (p ++ "\n"))) ("", none)

/-- The text `scrape_text_from_pdf` actually writes to the document
file: the loop variable `page_text` after the loop (`web_crawler.py:294`). -/
def scrapeTextFromPdfWritten (pages : List String) : Option String :=
  (pdfLoop pages).2

/-- The accumulated concatenation of all page texts built (and then
discarded) by `scrape_text_from_pdf` in its `text` variable. -/
def pdfFullConcat (pages : List String) : String :=
  (pdfLoop pages).1

/-- A fetched, rendered page as the engine observes it through
Playwright: `inner_text("body")`, the optional
`div[itemprop='articleBody']` inner text, and the `href`s of all
anchors. -/
structure Page where
  bodyText : String
  articleText : Option String
  links : List String

/-- The external collaborators: transport/renderer, md5, urljoin,
robots verdicts, and the requests+pdfplumber fallback used for PDFs. -/
structure CrawlWorld where
  page : String → Option Page
  hashFn : String → String
  urljoinFn : String → String → String
  robotsAllow : String → String → Bool
  pdfFetch : String → Option (List String)

/-- The crawl parameters fixed at `WebCrawler.__init__`. -/
structure CrawlerConfig where
  maxDepth : Nat
  maxPages : Nat
  allowedDomains : List String
  nonContentPhrases : List (String × List String)
  respectRobotsTxt : Bool

/-- The mutable state of a `WebCrawler` instance, plus observation logs
for the externally visible effects (page fetches, robots.txt fetches,
backoff sleeps). -/
structure CrawlerState where
  visitedUrls : List String
  urlsToVisit : List (String × Nat)
  pagesCrawled : Nat
  contentHashes : List String
  storedDocs : List (String × String)
  urlMapping : List (String × String)
  robotCache : List String
  robotsFetchLog : List String
  fetchLog : List String
  sleepLog : List Nat

/-- The state right after `__init__`: seeds at depth 0, loaded hashes
and mapping, empty logs (`web_crawler.py:94-101`). -/
def initState (startUrls : List String) (hashes : List String)
    (mapping : List (String × String)) : CrawlerState :=
  { visitedUrls := []
    urlsToVisit := startUrls.map (fun u => (u, 0))
    pagesCrawled := 0
    contentHashes := hashes
    storedDocs := []
    urlMapping := mapping
    robotCache := []
    robotsFetchLog := []
    fetchLog := []
    sleepLog := [] }

/-- Link normalisation in the link-extraction loop
(`web_crawler.py:210-212`): keep absolute `http(s)` links, resolve the
rest against the base URL with `urljoin`. -/
def resolveLink (world : CrawlWorld) (base link : String) : String :=
  if startsWithStr link "http://" || startsWithStr link "https://" then link
  else world.urljoinFn base link

/-- The `(link, depth + 1)` entries the link-extraction loop appends to
`urls_to_visit` (`web_crawler.py:210-216`): resolved links that contain
an allowed-domain substring and are not yet visited. -/
def eligibleLinks (cfg : CrawlerConfig) (world : CrawlWorld)
    (visited : List String) (base : String) (depth : Nat)
    (links : List String) : List (String × Nat) :=
  (((links.map (resolveLink world base)).filter
      (fun l => cfg.allowedDomains.any (fun d => strContains l d) &&
        decide (l ∉ visited))).map (fun l => (l, depth + 1)))

/-- `self.non_content_phrases[domain]` with the `KeyError → []`
handler of `scrape_text_from_playwright` (`web_crawler.py:226-229`). -/
def phrasesFor (m : List (String × List String)) (domain : String) :
    List String :=
  (dictLookup m domain).getD []

/-- The filtering done by `scrape_text_from_playwright` on the scraped
text of `url`: the phrase list of the URL's own netloc (empty when the
domain is not configured) drives `filterText`. -/
def scrapeFilter (m : List (String × List String)) (url text : String) :
    String :=
  filterText (phrasesFor m (pyNetloc url)) text

/-- Python truthiness of `s.strip()`: some character is not whitespace. -/
def hasContent (s : String) : Bool := s.data.any (fun c => !pyIsSpace c)

/-- `scrape_text_from_playwright` (`web_crawler.py:219-256`): scrape the
article body if present (else the whole body), filter, and if the
filtered text is non-blank record the URL mapping and write the
document. -/
def scrapeTextFromPlaywright (cfg : CrawlerConfig) (pg : Page)
    (url : String) (st : CrawlerState) : CrawlerState :=
  let text := match pg.articleText with
    | some t => t
    | none => pg.bodyText
  let filtered := scrapeFilter cfg.nonContentPhrases url text
  if hasContent filtered then
    let filename := urlToFilename url "txt"
    { st with
      urlMapping := updateUrlMapping st.urlMapping filename url
      storedDocs := dictSet st.storedDocs filename filtered }
  else st

/-- The tail of `process_page_playwright` (`web_crawler.py:208-217`):
enqueue the eligible links and increment `pages_crawled`. -/
def finishPage (cfg : CrawlerConfig) (world : CrawlWorld) (pg : Page)
    (url : String) (depth : Nat) (st : CrawlerState) : CrawlerState :=
  { st with
    urlsToVisit :=
      st.urlsToVisit ++ eligibleLinks cfg world st.visitedUrls url depth pg.links
    pagesCrawled := st.pagesCrawled + 1 }

/-- `process_page_playwright` (`web_crawler.py:182-217`): surge check on
the body text (backoff sleep, re-append `(url, depth)`, early return);
otherwise hash the body text, and when unseen record the hash and store
the page (PDF fallback via requests/pdfplumber, else the Playwright
scrape); finally extract links and bump the counter.  An empty PDF
aborts with `NameError` before link extraction. -/
def processPagePlaywright (cfg : CrawlerConfig) (world : CrawlWorld)
    (pg : Page) (url : String) (depth : Nat) (st : CrawlerState) :
    CrawlerState :=
  let pageText := pg.bodyText
  if strContains (lowerStr pageText) "surge protection" then
    { st with
      urlsToVisit := st.urlsToVisit ++ [(url, depth)]
      sleepLog := st.sleepLog ++ [60] }
  else
    let contentHash := world.hashFn pageText
    if contentHash ∈ st.contentHashes then
      finishPage cfg world pg url depth st
    else
      let stH := { st with contentHashes := st.contentHashes ++ [contentHash] }
      if strEndsWith (lowerStr url) ".pdf" then
        match world.pdfFetch url with
        | none => finishPage cfg world pg url depth stH
        | some pages =>
          match scrapeTextFromPdfWritten pages with
          | none => stH
          | some written =>
            let filename := urlToFilename url "txt"
            finishPage cfg world pg url depth
              { stH with
                storedDocs := dictSet stH.storedDocs filename written
                urlMapping := updateUrlMapping stH.urlMapping filename url }
      else
        finishPage cfg world pg url depth
          (scrapeTextFromPlaywright cfg pg url stH)

/-- `get_robot_parser` (`web_crawler.py:148-156`) as a state transform:
on a cache miss for the URL's domain, fetch `https://{domain}/robots.txt`
(logged) and cache the parser. -/
def getRobotParserState (url : String) (st : CrawlerState) : CrawlerState :=
  let domain := pyNetloc url
  if domain ∈ st.robotCache then st
  else
    { st with
      robotCache := st.robotCache ++ [domain]
      robotsFetchLog := st.robotsFetchLog ++ [domain] }

/-- `is_allowed_by_robots` (`web_crawler.py:158-160`): always consults
(and so possibly fetches) the domain's robots parser, then returns its
`can_fetch` verdict. -/
def isAllowedByRobots (world : CrawlWorld) (url : String)
    (st : CrawlerState) : Bool × CrawlerState :=
  (world.robotsAllow (pyNetloc url) url, getRobotParserState url st)

/-- One iteration of the `while` loop in `crawl`
(`web_crawler.py:122-143`): pop the oldest frontier entry; skip it if
visited or too deep; evaluate the robots check (always, in this operand
order) and skip if denied while the flag is set; else mark visited,
fetch (logged; a transport failure ends the iteration), and process. -/
def crawlStep (cfg : CrawlerConfig) (world : CrawlWorld)
    (st : CrawlerState) : CrawlerState :=
  match st.urlsToVisit with
  | [] => st
  | (url, depth) :: rest =>
    let st0 := { st with urlsToVisit := rest }
    if url ∈ st0.visitedUrls ∨ cfg.maxDepth < depth then st0
    else
      let rb := isAllowedByRobots world url st0
      if !rb.1 && cfg.respectRobotsTxt then rb.2
      else
        let st1 := { rb.2 with
          visitedUrls := rb.2.visitedUrls ++ [url]
          fetchLog := rb.2.fetchLog ++ [url] }
        match world.page url with
        | none => st1
        | some pg => processPagePlaywright cfg world pg url depth st1

/-- The `while self.urls_to_visit and self.pages_crawled < self.max_pages`
loop of `crawl`, with explicit fuel (the loop itself has no static
bound; every theorem quantifies over the fuel). -/
def crawlLoop (cfg : CrawlerConfig) (world : CrawlWorld) :
    Nat → CrawlerState → CrawlerState
  | 0, st => st
  | Nat.succ n, st =>
    if !st.urlsToVisit.isEmpty && decide (st.pagesCrawled < cfg.maxPages) then
      crawlLoop cfg world n (crawlStep cfg world st)
    else st

/-! Concrete fixtures used by the closed theorems below. -/

/-- A world whose single page body announces surge protection. -/
def surgeWorld : CrawlWorld :=
  { page := fun u =>
      if u = "https://e.com/a" then
        some { bodyText := "Surge Protection active", articleText := none,
               links := [] }
      else none
    hashFn := fun t => t
    urljoinFn := fun _ l => l
    robotsAllow := fun _ _ => true
    pdfFetch := fun _ => none }

/-- A permissive configuration for the single-domain fixtures. -/
def baseCfg : CrawlerConfig :=
  { maxDepth := 2, maxPages := 10, allowedDomains := ["e.com"],
    nonContentPhrases := [], respectRobotsTxt := false }

/-- A world serving one ordinary text page that links to a second page. -/
def linkWorld : CrawlWorld :=
  { page := fun u =>
      if u = "https://e.com/a" then
        some { bodyText := "hello world text here", articleText := none,
               links := ["https://e.com/b"] }
      else none
    hashFn := fun t => t
    urljoinFn := fun _ l => l
    robotsAllow := fun _ _ => true
    pdfFetch := fun _ => none }

/-- `linkWorld` with every robots verdict negative. -/
def denyRobotsWorld : CrawlWorld :=
  { page := linkWorld.page
    hashFn := fun t => t
    urljoinFn := fun _ l => l
    robotsAllow := fun _ _ => false
    pdfFetch := fun _ => none }

/-- A world serving a two-page PDF at a `.pdf` URL. -/
def pdfWorld : CrawlWorld :=
  { page := fun u =>
      if u = "https://e.com/doc.pdf" then
        some { bodyText := "raw pdf bytes rendered", articleText := none,
               links := [] }
      else none
    hashFn := fun t => t
    urljoinFn := fun _ l => l
    robotsAllow := fun _ _ => true
    pdfFetch := fun u =>
      if u = "https://e.com/doc.pdf" then some ["First page.", "Second page."]
      else none }

/-- Claim C1.  On a page whose text contains the rate-limit marker the
engine does sleep the 60s backoff, re-push the same `(url, depth)`, and
stop (no counter increment) — but the re-pushed entry is NOT
special-cased against the pop-time visited-check: the URL is already in
the visited set, so when the re-queued entry is popped it is discarded
and the URL is never fetched again.  After the first step the fetch log
holds the one fetch, the frontier holds the re-queued entry and the
counter is 0; after the second step the fetch log is unchanged and the
frontier is empty. -/
theorem C1_surge_requeue_dropped :
    (crawlStep baseCfg surgeWorld
        (initState ["https://e.com/a"] [] [])).sleepLog = [60] ∧
    (crawlStep baseCfg surgeWorld
        (initState ["https://e.com/a"] [] [])).urlsToVisit =
      [("https://e.com/a", 0)] ∧
    (crawlStep baseCfg surgeWorld
        (initState ["https://e.com/a"] [] [])).pagesCrawled = 0 ∧
    (crawlStep baseCfg surgeWorld
        (initState ["https://e.com/a"] [] [])).visitedUrls =
      ["https://e.com/a"] ∧
    (crawlStep baseCfg surgeWorld
        (initState ["https://e.com/a"] [] [])).fetchLog =
      ["https://e.com/a"] ∧
    (crawlStep baseCfg surgeWorld (crawlStep baseCfg surgeWorld
        (initState ["https://e.com/a"] [] []))).fetchLog =
      ["https://e.com/a"] ∧
    (crawlStep baseCfg surgeWorld (crawlStep baseCfg surgeWorld
        (initState ["https://e.com/a"] [] []))).urlsToVisit = [] := by
  decide

/-- Claim C2.  `scrape_text_from_pdf` builds the full concatenation of
the page texts in its `text` variable but writes only the final
iteration's `page_text` to the document store: for a two-page PDF the
stored text is the second page's text alone, and the first page's text
does not occur in it although it occurs in the accumulated
concatenation. -/
theorem C2_pdf_last_page_only :
    (crawlStep baseCfg pdfWorld
        (initState ["https://e.com/doc.pdf"] [] [])).storedDocs =
      [("e_com_doc_pdf.txt", "Second page.\n")] ∧
    scrapeTextFromPdfWritten ["First page.", "Second page."] =
      some "Second page.\n" ∧
    pdfFullConcat ["First page.", "Second page."] =
      "\nFirst page.\n\nSecond page.\n" ∧
    strContains "Second page.\n" "First page." = false ∧
    strContains (pdfFullConcat ["First page.", "Second page."])
      "First page." = true := by
  decide

/-- The configuration of the depth-bound fixture: `max_depth = 0`. -/
def depthCfg : CrawlerConfig :=
  { maxDepth := 0, maxPages := 10, allowedDomains := ["e.com"],
    nonContentPhrases := [], respectRobotsTxt := false }

/-- Claim C5, counterexample.  With `max_depth = 0`, processing the seed
enqueues the discovered link at depth 1 — an entry whose depth exceeds
`max_depth` IS enqueued into the frontier, refuting the claim that such
pushes are discarded at push time. -/
theorem C5_deep_link_enqueued :
    ("https://e.com/b", 1) ∈
      (crawlStep depthCfg linkWorld
        (initState ["https://e.com/a"] [] [])).urlsToVisit ∧
    depthCfg.maxDepth < 1 := by
  decide

/-- Claim C7, counterexample.  With `respect_robots_txt = False` and a
robots policy denying everything, the page is still crawled (the flag
does disable the gate) but the domain's robots.txt IS fetched, because
`not self.is_allowed_by_robots(url)` is evaluated before the flag in
`crawl`'s conjunction — refuting "no robots.txt file is ever fetched". -/
theorem C7_robots_fetched_when_disabled :
    baseCfg.respectRobotsTxt = false ∧
    (crawlStep baseCfg denyRobotsWorld
        (initState ["https://e.com/a"] [] [])).robotsFetchLog = ["e.com"] ∧
    (crawlStep baseCfg denyRobotsWorld
        (initState ["https://e.com/a"] [] [])).fetchLog =
      ["https://e.com/a"] ∧
    (crawlStep baseCfg denyRobotsWorld
        (initState ["https://e.com/a"] [] [])).pagesCrawled = 1 := by
  decide

/-- Claim C8, counterexample.  `url_to_filename` slices a fixed 8
characters (`url[8:]`) instead of the scheme prefix: for an
`http://` URL the first character of the domain is also dropped, the
result differs from the spec-described scheme-stripped filename, and
two URLs differing in that character collide, so domain+path is not
recoverable from the filename even up to replaced characters. -/
theorem C8_http_scheme_mangled :
    urlToFilename "http://a.com" "txt" ≠
      urlToFilenameSpec "http://a.com" "txt" ∧
    urlToFilename "http://a.com" "txt" = urlToFilename "http://b.com" "txt" ∧
    subIllegal (stripScheme "http://a.com") ≠
      subIllegal (stripScheme "http://b.com") := by
  decide

/-- Claim C8, amended.  The filename is derived deterministically by
dropping the first 8 characters of the URL (the length of `"https://"`),
substituting the illegal characters and appending the extension: for
`https://` URLs this coincides with the spec's scheme-stripped filename
(so domain+path is recoverable up to replaced characters), while for
`http://` URLs the first character after the scheme is dropped as
well. -/
theorem C8_drop8_filename :
    (∀ rest fmt : String,
      urlToFilename ("https://" ++ rest) fmt =
        urlToFilenameSpec ("https://" ++ rest) fmt) ∧
    (∀ rest fmt : String,
      urlToFilename ("http://" ++ rest) fmt =
        subIllegal ⟨rest.data.drop 1⟩ ++ "." ++ fmt) := by
  exact ⟨fun rest fmt => rfl, fun rest fmt => rfl⟩

/-! Lemmas about the line splitting/joining primitives. -/

theorem pyLinesCh_nlfree {l : List Char} (h : '\n' ∉ l) (hne : l ≠ []) :
    pyLinesCh l = [l] := by
  induction l with
  | nil => exact absurd rfl hne
  | cons c cs ih =>
    have hc : ¬c = '\n' := fun hc => h (hc ▸ List.mem_cons_self c cs)
    have hcs : '\n' ∉ cs := fun hm => h (List.mem_cons_of_mem c hm)
    by_cases hcse : cs = []
    · subst hcse; simp [pyLinesCh, hc]
    · simp [pyLinesCh, hc, ih hcs hcse]

theorem pyLinesCh_append (l J : List Char) (h : '\n' ∉ l) :
    pyLinesCh (l ++ '\n' :: J) = l :: pyLinesCh J := by
  induction l with
  | nil => simp [pyLinesCh]
  | cons c cs ih =>
    have hc : ¬c = '\n' := fun hc => h (hc ▸ List.mem_cons_self c cs)
    have hcs : '\n' ∉ cs := fun hm => h (List.mem_cons_of_mem c hm)
    simp [pyLinesCh, hc, ih hcs]

theorem nlfree_of_mem_pyLinesCh {cs : List Char} {l : List Char}
    (h : l ∈ pyLinesCh cs) : '\n' ∉ l := by
  induction cs generalizing l with
  | nil => simp [pyLinesCh] at h
  | cons c cs ih =>
    rw [pyLinesCh] at h
    by_cases hc : c = '\n'
    · rw [if_pos hc] at h
      rcases List.mem_cons.mp h with h | h
      · subst h; simp
      · exact ih h
    · rw [if_neg hc] at h
      rcases he : pyLinesCh cs with _ | ⟨l0, ls⟩
      · rw [he] at h
        have hl : l = [c] := List.mem_singleton.mp h
        subst hl
        intro hm
        exact hc (List.mem_singleton.mp hm).symm
      · rw [he] at h
        rcases List.mem_cons.mp h with hh | hh
        · subst hh
          intro hm
          rcases List.mem_cons.mp hm with hb | hb
          · exact hc hb.symm
          · exact ih (he ▸ List.mem_cons_self l0 ls) hb
        · exact ih (he ▸ List.mem_cons_of_mem l0 hh)

theorem pyLinesCh_joinNlCh {ls : List (List Char)}
    (h : ∀ l ∈ ls, '\n' ∉ l ∧ l ≠ []) :
    pyLinesCh (joinNlCh ls) = ls := by
  induction ls with
  | nil => rfl
  | cons l ls ih =>
    cases ls with
    | nil =>
      have hl := h l (List.mem_cons_self l [])
      exact pyLinesCh_nlfree hl.1 hl.2
    | cons l2 ls2 =>
      have hl := h l (List.mem_cons_self l (l2 :: ls2))
      rw [joinNlCh, pyLinesCh_append _ _ hl.1,
        ih (fun x hx => h x (List.mem_cons_of_mem l hx))]

theorem string_mk_data (s : String) : (⟨s.data⟩ : String) = s := rfl

theorem pySplitlines_joinNl {ls : List String}
    (h : ∀ l ∈ ls, '\n' ∉ l.data ∧ l.data ≠ []) :
    pySplitlines (joinNl ls) = ls := by
  unfold pySplitlines joinNl
  rw [pyLinesCh_joinNlCh]
  · have hid : ((fun l => (⟨l⟩ : String)) ∘ String.data) = id :=
      funext fun s => rfl
    rw [List.map_map, hid, List.map_id]
  · intro l hl
    rcases List.mem_map.mp hl with ⟨s, hs, rfl⟩
    exact h s hs

theorem keepLine_data_ne_nil {ps : List String} {l : String}
    (h : keepLine ps l = true) : l.data ≠ [] := by
  intro he
  rw [keepLine, pySplitWs, he] at h
  simp [splitWsAux] at h

theorem filtered_lines_ok (ps : List String) (text : String) :
    ∀ l ∈ (pySplitlines text).filter (keepLine ps),
      '\n' ∉ l.data ∧ l.data ≠ [] := by
  intro l hl
  rcases List.mem_filter.mp hl with ⟨hmem, hkeep⟩
  refine ⟨?_, keepLine_data_ne_nil hkeep⟩
  rcases List.mem_map.mp hmem with ⟨ld, hld, rfl⟩
  exact nlfree_of_mem_pyLinesCh hld

/-- Splitting the filter's output recovers exactly the kept lines. -/
theorem pySplitlines_filterText (ps : List String) (text : String) :
    pySplitlines (filterText ps text) =
      (pySplitlines text).filter (keepLine ps) := by
  unfold filterText
  exact pySplitlines_joinNl (filtered_lines_ok ps text)

theorem filterText_idem (ps : List String) (text : String) :
    filterText ps (filterText ps text) = filterText ps text := by
  show joinNl ((pySplitlines (filterText ps text)).filter (keepLine ps)) =
    filterText ps text
  rw [pySplitlines_filterText,
    List.filter_eq_self.mpr (fun a ha => List.of_mem_filter ha)]
  rfl

/-- Claim C9.  The content filter is idempotent: filtering the filter's
own output (for the same URL, hence the same domain phrase list) yields
it unchanged, because every retained line still has more than two
tokens and still avoids every phrase, and rejoining with newlines then
resplitting reproduces exactly the retained lines. -/
theorem C9_filter_idempotent (m : List (String × List String))
    (url text : String) :
    scrapeFilter m url (scrapeFilter m url text) = scrapeFilter m url text :=
  filterText_idem (phrasesFor m (pyNetloc url)) text

/-! Association-list (Python dict) lemmas. -/

theorem dictLookup_dictSet_self {α : Type} (m : List (String × α))
    (k : String) (v : α) :
    dictLookup (dictSet m k v) k = some v := by
  induction m with
  | nil => simp [dictSet, dictLookup]
  | cons kv m ih =>
    obtain ⟨k0, v0⟩ := kv
    by_cases h0 : k0 = k
    · simp [dictSet, dictLookup, h0]
    · simp [dictSet, dictLookup, h0, ih]

theorem dictLookup_dictSet_ne {α : Type} (m : List (String × α))
    {k k2 : String} (v : α) (h : ¬k = k2) :
    dictLookup (dictSet m k v) k2 = dictLookup m k2 := by
  induction m with
  | nil => simp [dictSet, dictLookup, h]
  | cons kv m ih =>
    obtain ⟨k0, v0⟩ := kv
    by_cases h0 : k0 = k
    · subst h0
      simp [dictSet, dictLookup, h]
    · have h2k : ¬k2 = k := fun hh => h hh.symm
      by_cases h2 : k0 = k2
      · simp [dictSet, dictLookup, h0, h2, h2k]
      · simp [dictSet, dictLookup, h0, h2, ih]

theorem keepLine_iff (ps : List String) (l : String) :
    keepLine ps l = true ↔
      (2 < (pySplitWs l).length ∧
        ∀ p ∈ ps, strContains l p = false) := by
  simp [keepLine, List.any_eq_true, Bool.not_eq_true]

/-- Claim C6.  The scrape-time content filter keeps exactly the lines
with more than two whitespace-separated tokens containing none of the
phrases configured for the URL's own netloc; phrase lists are
domain-scoped (configuring any other domain never changes this URL's
filtered output); and a URL whose domain has no configured phrase list
is filtered with the empty phrase list (token-count filtering only). -/
theorem C6_domain_scoped_filter (m : List (String × List String))
    (url text : String) :
    (∀ line, line ∈ pySplitlines (scrapeFilter m url text) ↔
      (line ∈ pySplitlines text ∧ 2 < (pySplitWs line).length ∧
        ∀ p ∈ phrasesFor m (pyNetloc url), strContains line p = false)) ∧
    (∀ d ps, ¬d = pyNetloc url →
      scrapeFilter (dictSet m d ps) url text = scrapeFilter m url text) ∧
    (dictLookup m (pyNetloc url) = none →
      scrapeFilter m url text = filterText [] text) := by
  refine ⟨fun line => ?_, fun d ps hne => ?_, fun hnone => ?_⟩
  · rw [scrapeFilter, pySplitlines_filterText, List.mem_filter, keepLine_iff]
  · unfold scrapeFilter phrasesFor
    rw [dictLookup_dictSet_ne m ps hne]
  · unfold scrapeFilter phrasesFor
    rw [hnone]
    rfl

/-- Witness for C6 at a concrete input: configuring a phrase list for a
domain other than the URL's own leaves the filtered output unchanged,
and a kept line is characterised by the token/phrase condition. -/
theorem C6_domain_scoped_filter_witness :
    (scrapeFilter (dictSet [("a.com", ["menu"])] "other.com" ["three"])
        "https://b.com/x" "one two three\nmenu item x" =
      scrapeFilter [("a.com", ["menu"])] "https://b.com/x"
        "one two three\nmenu item x") ∧
    ("one two three" ∈
        pySplitlines (scrapeFilter [("a.com", ["menu"])] "https://b.com/x"
          "one two three\nmenu item x") ↔
      ("one two three" ∈ pySplitlines "one two three\nmenu item x" ∧
        2 < (pySplitWs "one two three").length ∧
        ∀ p ∈ phrasesFor [("a.com", ["menu"])] (pyNetloc "https://b.com/x"),
          strContains "one two three" p = false)) :=
  ⟨(C6_domain_scoped_filter [("a.com", ["menu"])] "https://b.com/x"
      "one two three\nmenu item x").2.1 "other.com" ["three"] (by decide),
   (C6_domain_scoped_filter [("a.com", ["menu"])] "https://b.com/x"
      "one two three\nmenu item x").1 "one two three"⟩

/-! Field-preservation lemmas for the processing pipeline. -/

theorem scrapeText_pagesCrawled (cfg : CrawlerConfig) (pg : Page)
    (url : String) (st : CrawlerState) :
    (scrapeTextFromPlaywright cfg pg url st).pagesCrawled = st.pagesCrawled := by
  unfold scrapeTextFromPlaywright
  dsimp only
  split <;> rfl

theorem scrapeText_contentHashes (cfg : CrawlerConfig) (pg : Page)
    (url : String) (st : CrawlerState) :
    (scrapeTextFromPlaywright cfg pg url st).contentHashes =
      st.contentHashes := by
  unfold scrapeTextFromPlaywright
  dsimp only
  split <;> rfl

theorem scrapeText_urlsToVisit (cfg : CrawlerConfig) (pg : Page)
    (url : String) (st : CrawlerState) :
    (scrapeTextFromPlaywright cfg pg url st).urlsToVisit = st.urlsToVisit := by
  unfold scrapeTextFromPlaywright
  dsimp only
  split <;> rfl

theorem scrapeText_visitedUrls (cfg : CrawlerConfig) (pg : Page)
    (url : String) (st : CrawlerState) :
    (scrapeTextFromPlaywright cfg pg url st).visitedUrls = st.visitedUrls := by
  unfold scrapeTextFromPlaywright
  dsimp only
  split <;> rfl

theorem scrapeText_fetchLog (cfg : CrawlerConfig) (pg : Page)
    (url : String) (st : CrawlerState) :
    (scrapeTextFromPlaywright cfg pg url st).fetchLog = st.fetchLog := by
  unfold scrapeTextFromPlaywright
  dsimp only
  split <;> rfl

theorem scrapeText_robotsFetchLog (cfg : CrawlerConfig) (pg : Page)
    (url : String) (st : CrawlerState) :
    (scrapeTextFromPlaywright cfg pg url st).robotsFetchLog =
      st.robotsFetchLog := by
  unfold scrapeTextFromPlaywright
  dsimp only
  split <;> rfl

theorem scrapeText_robotCache (cfg : CrawlerConfig) (pg : Page)
    (url : String) (st : CrawlerState) :
    (scrapeTextFromPlaywright cfg pg url st).robotCache = st.robotCache := by
  unfold scrapeTextFromPlaywright
  dsimp only
  split <;> rfl

theorem process_pages_le (cfg : CrawlerConfig) (world : CrawlWorld)
    (pg : Page) (url : String) (depth : Nat) (st : CrawlerState) :
    (processPagePlaywright cfg world pg url depth st).pagesCrawled ≤
      st.pagesCrawled + 1 := by
  unfold processPagePlaywright finishPage
  dsimp only
  repeat' split
  all_goals first
    | exact Nat.le_succ _
    | exact Nat.le_refl _
    | (rw [scrapeText_pagesCrawled])

theorem process_fetchLog (cfg : CrawlerConfig) (world : CrawlWorld)
    (pg : Page) (url : String) (depth : Nat) (st : CrawlerState) :
    (processPagePlaywright cfg world pg url depth st).fetchLog =
      st.fetchLog := by
  unfold processPagePlaywright finishPage
  dsimp only
  repeat' split
  all_goals first
    | rfl
    | exact scrapeText_fetchLog _ _ _ _

theorem process_robotsFetchLog (cfg : CrawlerConfig) (world : CrawlWorld)
    (pg : Page) (url : String) (depth : Nat) (st : CrawlerState) :
    (processPagePlaywright cfg world pg url depth st).robotsFetchLog =
      st.robotsFetchLog := by
  unfold processPagePlaywright finishPage
  dsimp only
  repeat' split
  all_goals first
    | rfl
    | exact scrapeText_robotsFetchLog _ _ _ _

theorem crawlStep_pages_le (cfg : CrawlerConfig) (world : CrawlWorld)
    (st : CrawlerState) :
    (crawlStep cfg world st).pagesCrawled ≤ st.pagesCrawled + 1 := by
  unfold crawlStep isAllowedByRobots getRobotParserState
  dsimp only
  repeat' split
  all_goals first
    | exact Nat.le_succ _
    | exact process_pages_le _ _ _ _ _ _

theorem crawlLoop_pages_le (cfg : CrawlerConfig) (world : CrawlWorld) :
    ∀ (n : Nat) (st : CrawlerState), st.pagesCrawled ≤ cfg.maxPages →
      (crawlLoop cfg world n st).pagesCrawled ≤ cfg.maxPages := by
  intro n
  induction n with
  | zero => intro st h; exact h
  | succ n ih =>
    intro st h
    rw [crawlLoop]
    split
    · next hcond =>
      apply ih
      have h2 := crawlStep_pages_le cfg world st
      have h3 : st.pagesCrawled < cfg.maxPages := by
        rcases Bool.and_eq_true_iff.mp hcond with ⟨_, hlt⟩
        exact of_decide_eq_true hlt
      omega
    · exact h

/-- Claim C4.  Starting from the initial crawl state (counter 0), the
engine loop never drives the pages-crawled counter above `max_pages`,
for any fuel, any configuration and any world: the loop condition stops
iterating once the counter reaches `max_pages`, and a single iteration
increments the counter by at most one (a rate-limited re-queue and a
failed fetch increment it by zero, every completed processing by
exactly one). -/
theorem C4_max_pages_bound (cfg : CrawlerConfig) (world : CrawlWorld)
    (startUrls hashes : List String) (mapping : List (String × String))
    (fuel : Nat) :
    (crawlLoop cfg world fuel
      (initState startUrls hashes mapping)).pagesCrawled ≤ cfg.maxPages :=
  crawlLoop_pages_le cfg world fuel _ (Nat.zero_le _)

/-- After a non-rate-limited processing, the hash of the page's body
text is in the content-hash set (it was either already present or has
just been recorded). -/
theorem process_hash_mem (cfg : CrawlerConfig) (world : CrawlWorld)
    (pg : Page) (url : String) (depth : Nat) (st : CrawlerState)
    (hsurge : strContains (lowerStr pg.bodyText) "surge protection" = false) :
    world.hashFn pg.bodyText ∈
      (processPagePlaywright cfg world pg url depth st).contentHashes := by
  have hs : ¬strContains (lowerStr pg.bodyText) "surge protection" = true := by
    simp [hsurge]
  unfold processPagePlaywright finishPage
  dsimp only
  rw [if_neg hs]
  by_cases hmem : world.hashFn pg.bodyText ∈ st.contentHashes
  · rw [if_pos hmem]
    exact hmem
  · rw [if_neg hmem]
    repeat' split
    all_goals first
      | exact List.mem_append_right _ (List.mem_singleton_self _)
      | (rw [scrapeText_contentHashes]
         exact List.mem_append_right _ (List.mem_singleton_self _))

/-- When the page's hash is already recorded, processing skips the
whole storage branch and goes straight to link extraction and the
counter increment. -/
theorem process_dup (cfg : CrawlerConfig) (world : CrawlWorld)
    (pg : Page) (url : String) (depth : Nat) (st : CrawlerState)
    (hsurge : strContains (lowerStr pg.bodyText) "surge protection" = false)
    (hmem : world.hashFn pg.bodyText ∈ st.contentHashes) :
    processPagePlaywright cfg world pg url depth st =
      finishPage cfg world pg url depth st := by
  have hs : ¬strContains (lowerStr pg.bodyText) "surge protection" = true := by
    simp [hsurge]
  unfold processPagePlaywright
  dsimp only
  rw [if_neg hs, if_pos hmem]

/-- Claim C3.  The content hash is a function of the extracted page
text alone (`md5(page_text)`), so after processing any page the hash of
its body text is recorded, and processing a second URL whose extracted
body text is identical (here `pg1.bodyText = pg2.bodyText`) stores
nothing and updates no mapping — but still appends exactly the second
page's eligible outbound links to the frontier and increments the
page counter. -/
theorem C3_dedup_second_occurrence (cfg : CrawlerConfig)
    (world : CrawlWorld) (st : CrawlerState) (u1 u2 : String)
    (d1 d2 : Nat) (pg1 pg2 : Page)
    (htext : pg1.bodyText = pg2.bodyText)
    (hsurge : strContains (lowerStr pg2.bodyText) "surge protection" = false) :
    (processPagePlaywright cfg world pg2 u2 d2
        (processPagePlaywright cfg world pg1 u1 d1 st)).storedDocs =
      (processPagePlaywright cfg world pg1 u1 d1 st).storedDocs ∧
    (processPagePlaywright cfg world pg2 u2 d2
        (processPagePlaywright cfg world pg1 u1 d1 st)).urlMapping =
      (processPagePlaywright cfg world pg1 u1 d1 st).urlMapping ∧
    (processPagePlaywright cfg world pg2 u2 d2
        (processPagePlaywright cfg world pg1 u1 d1 st)).contentHashes =
      (processPagePlaywright cfg world pg1 u1 d1 st).contentHashes ∧
    (processPagePlaywright cfg world pg2 u2 d2
        (processPagePlaywright cfg world pg1 u1 d1 st)).urlsToVisit =
      (processPagePlaywright cfg world pg1 u1 d1 st).urlsToVisit ++
        eligibleLinks cfg world
          (processPagePlaywright cfg world pg1 u1 d1 st).visitedUrls
          u2 d2 pg2.links ∧
    (processPagePlaywright cfg world pg2 u2 d2
        (processPagePlaywright cfg world pg1 u1 d1 st)).pagesCrawled =
      (processPagePlaywright cfg world pg1 u1 d1 st).pagesCrawled + 1 := by
  have hs1 : strContains (lowerStr pg1.bodyText) "surge protection" = false := by
    rw [htext]; exact hsurge
  have hm : world.hashFn pg2.bodyText ∈
      (processPagePlaywright cfg world pg1 u1 d1 st).contentHashes := by
    rw [← htext]
    exact process_hash_mem cfg world pg1 u1 d1 st hs1
  rw [process_dup cfg world pg2 u2 d2 _ hsurge hm]
  exact ⟨rfl, rfl, rfl, rfl, rfl⟩

/-- The page shared by the two URLs of the C3 witness. -/
def dupPage : Page :=
  { bodyText := "hello world text here", articleText := none,
    links := ["https://e.com/b"] }

/-- Witness for C3 at a concrete input: two distinct URLs serving the
same body text; the second processing stores nothing but still
enqueues the links and bumps the counter. -/
theorem C3_dedup_second_occurrence_witness :
    (processPagePlaywright baseCfg linkWorld dupPage "https://e.com/y" 0
        (processPagePlaywright baseCfg linkWorld dupPage "https://e.com/x" 0
          (initState [] [] []))).storedDocs =
      (processPagePlaywright baseCfg linkWorld dupPage "https://e.com/x" 0
        (initState [] [] [])).storedDocs ∧
    (processPagePlaywright baseCfg linkWorld dupPage "https://e.com/y" 0
        (processPagePlaywright baseCfg linkWorld dupPage "https://e.com/x" 0
          (initState [] [] []))).urlMapping =
      (processPagePlaywright baseCfg linkWorld dupPage "https://e.com/x" 0
        (initState [] [] [])).urlMapping ∧
    (processPagePlaywright baseCfg linkWorld dupPage "https://e.com/y" 0
        (processPagePlaywright baseCfg linkWorld dupPage "https://e.com/x" 0
          (initState [] [] []))).contentHashes =
      (processPagePlaywright baseCfg linkWorld dupPage "https://e.com/x" 0
        (initState [] [] [])).contentHashes ∧
    (processPagePlaywright baseCfg linkWorld dupPage "https://e.com/y" 0
        (processPagePlaywright baseCfg linkWorld dupPage "https://e.com/x" 0
          (initState [] [] []))).urlsToVisit =
      (processPagePlaywright baseCfg linkWorld dupPage "https://e.com/x" 0
        (initState [] [] [])).urlsToVisit ++
        eligibleLinks baseCfg linkWorld
          (processPagePlaywright baseCfg linkWorld dupPage "https://e.com/x" 0
            (initState [] [] [])).visitedUrls
          "https://e.com/y" 0 dupPage.links ∧
    (processPagePlaywright baseCfg linkWorld dupPage "https://e.com/y" 0
        (processPagePlaywright baseCfg linkWorld dupPage "https://e.com/x" 0
          (initState [] [] []))).pagesCrawled =
      (processPagePlaywright baseCfg linkWorld dupPage "https://e.com/x" 0
        (initState [] [] [])).pagesCrawled + 1 :=
  C3_dedup_second_occurrence baseCfg linkWorld (initState [] [] [])
    "https://e.com/x" "https://e.com/y" 0 0 dupPage dupPage rfl (by decide)

/-- Claim C5, amended.  The depth bound is enforced at pop time, not at
push time: whenever the head of the frontier carries a depth exceeding
`max_depth`, one crawl step removes that entry and changes nothing
else — the entry is never robots-checked, fetched, marked visited,
stored or counted. -/
theorem C5_pop_time_depth_check (cfg : CrawlerConfig) (world : CrawlWorld)
    (st : CrawlerState) (url : String) (depth : Nat)
    (rest : List (String × Nat))
    (hq : st.urlsToVisit = (url, depth) :: rest)
    (hd : cfg.maxDepth < depth) :
    crawlStep cfg world st = { st with urlsToVisit := rest } := by
  unfold crawlStep
  rw [hq]
  dsimp only
  rw [if_pos (Or.inr hd)]

/-- A state whose frontier head is an over-deep entry. -/
def deepState : CrawlerState :=
  { initState [] [] [] with urlsToVisit := [("https://e.com/deep", 1)] }

/-- Witness for the amended C5 at a concrete input: with
`max_depth = 0` a popped depth-1 entry is dropped unchanged. -/
theorem C5_pop_time_depth_check_witness :
    crawlStep depthCfg linkWorld deepState =
      { deepState with urlsToVisit := [] } :=
  C5_pop_time_depth_check depthCfg linkWorld deepState
    "https://e.com/deep" 1 [] rfl (by decide)

/-- Claim C7, amended.  With `respect_robots_txt` disabled the robots
gate never causes a URL to be skipped — a popped, unvisited, in-depth
entry is always fetched, whatever the robots verdict — but the robots
check itself is still evaluated first, so the domain's robots.txt is
still fetched (and cached) for every new domain. -/
theorem C7_disabled_no_skip (cfg : CrawlerConfig) (world : CrawlWorld)
    (st : CrawlerState) (url : String) (depth : Nat)
    (rest : List (String × Nat))
    (hflag : cfg.respectRobotsTxt = false)
    (hq : st.urlsToVisit = (url, depth) :: rest)
    (hv : url ∉ st.visitedUrls)
    (hd : depth ≤ cfg.maxDepth) :
    url ∈ (crawlStep cfg world st).fetchLog ∧
    (pyNetloc url ∉ st.robotCache →
      pyNetloc url ∈ (crawlStep cfg world st).robotsFetchLog) := by
  unfold crawlStep isAllowedByRobots getRobotParserState
  rw [hq]
  dsimp only
  have hcond : ¬(url ∈ st.visitedUrls ∨ cfg.maxDepth < depth) := by
    intro h
    rcases h with h | h
    · exact hv h
    · exact Nat.lt_irrefl _ (Nat.lt_of_lt_of_le h hd)
  rw [if_neg hcond, hflag]
  simp only [Bool.and_false, Bool.false_eq_true, if_false]
  rcases hpage : world.page url with _ | pg
  · dsimp only
    constructor
    · exact List.mem_append_right _ (List.mem_singleton_self _)
    · intro hcache
      rw [if_neg hcache]
      exact List.mem_append_right _ (List.mem_singleton_self _)
  · dsimp only
    constructor
    · rw [process_fetchLog]
      exact List.mem_append_right _ (List.mem_singleton_self _)
    · intro hcache
      rw [process_robotsFetchLog]
      rw [if_neg hcache]
      exact List.mem_append_right _ (List.mem_singleton_self _)

/-- Witness for the amended C7 at a concrete input: flag disabled,
robots verdict negative, yet the page is fetched and the domain's
robots.txt fetch is logged. -/
theorem C7_disabled_no_skip_witness :
    "https://e.com/a" ∈
      (crawlStep baseCfg denyRobotsWorld
        (initState ["https://e.com/a"] [] [])).fetchLog ∧
    (pyNetloc "https://e.com/a" ∉
        (initState ["https://e.com/a"] [] [] : CrawlerState).robotCache →
      pyNetloc "https://e.com/a" ∈
        (crawlStep baseCfg denyRobotsWorld
          (initState ["https://e.com/a"] [] [])).robotsFetchLog) :=
  C7_disabled_no_skip baseCfg denyRobotsWorld
    (initState ["https://e.com/a"] [] []) "https://e.com/a" 0 [] rfl rfl
    (by decide) (by decide)

theorem keyCount_cons {α : Type} (k0 : String) (v0 : α)
    (m : List (String × α)) (k : String) :
    keyCount ((k0, v0) :: m) k =
      if k0 = k then keyCount m k + 1 else keyCount m k := by
  by_cases h : k0 = k <;> simp [keyCount, List.filter_cons, h]

theorem keyCount_dictSet {α : Type} (m : List (String × α))
    (k : String) (v : α) (h : keyCount m k ≤ 1) :
    keyCount (dictSet m k v) k = 1 := by
  induction m with
  | nil => simp [dictSet, keyCount]
  | cons kv m ih =>
    obtain ⟨k0, v0⟩ := kv
    rw [keyCount_cons] at h
    by_cases h0 : k0 = k
    · rw [if_pos h0] at h
      have hz : keyCount m k = 0 := by omega
      rw [dictSet, if_pos h0, keyCount_cons, if_pos h0, hz]
    · rw [if_neg h0] at h
      rw [dictSet, if_neg h0, keyCount_cons, if_neg h0]
      exact ih h

/-- Claim C10.  `update_url_mapping` is a frame-preserving single-key
update: after the call the given filename maps to the given URL, every
other filename still maps to its previous URL, the updated filename has
exactly one entry (given the dict invariant that it had at most one
before), and a second update of the same filename overwrites that
single entry instead of duplicating it. -/
theorem C10_mapping_update_frame (m : List (String × String))
    (filename url g url2 : String)
    (hg : ¬filename = g)
    (hcount : keyCount m filename ≤ 1) :
    dictLookup (updateUrlMapping m filename url) filename = some url ∧
    dictLookup (updateUrlMapping m filename url) g = dictLookup m g ∧
    keyCount (updateUrlMapping m filename url) filename = 1 ∧
    dictLookup (updateUrlMapping (updateUrlMapping m filename url)
      filename url2) filename = some url2 ∧
    keyCount (updateUrlMapping (updateUrlMapping m filename url)
      filename url2) filename = 1 := by
  have h1 : keyCount (updateUrlMapping m filename url) filename = 1 :=
    keyCount_dictSet m filename url hcount
  refine ⟨dictLookup_dictSet_self m filename url,
    dictLookup_dictSet_ne m url hg, h1,
    dictLookup_dictSet_self _ filename url2,
    keyCount_dictSet _ filename url2 (by rw [h1])⟩

/-- Witness for C10 at a concrete input: updating a mapping that
already holds another document's entry. -/
theorem C10_mapping_update_frame_witness :
    dictLookup (updateUrlMapping [("a_com_x.txt", "https://a.com/x")]
      "f.txt" "https://e.com/f") "f.txt" = some "https://e.com/f" ∧
    dictLookup (updateUrlMapping [("a_com_x.txt", "https://a.com/x")]
        "f.txt" "https://e.com/f") "a_com_x.txt" =
      dictLookup [("a_com_x.txt", "https://a.com/x")] "a_com_x.txt" ∧
    keyCount (updateUrlMapping [("a_com_x.txt", "https://a.com/x")]
      "f.txt" "https://e.com/f") "f.txt" = 1 ∧
    dictLookup (updateUrlMapping
      (updateUrlMapping [("a_com_x.txt", "https://a.com/x")]
        "f.txt" "https://e.com/f") "f.txt" "https://e.com/f2") "f.txt" =
      some "https://e.com/f2" ∧
    keyCount (updateUrlMapping
      (updateUrlMapping [("a_com_x.txt", "https://a.com/x")]
        "f.txt" "https://e.com/f") "f.txt" "https://e.com/f2") "f.txt" = 1 :=
  C10_mapping_update_frame [("a_com_x.txt", "https://a.com/x")]
    "f.txt" "https://e.com/f" "a_com_x.txt" "https://e.com/f2"
    (by decide) (by decide)

end WebCrawlerPy
